import Mathlib

/-!
Verification of the cost-manager server (`routes/api.js`, `models/cost.js`,
`models/user.js`) against its natural-language specification.

The HTTP handlers are embedded shallowly: the Entity Store is a pair of lists
(users, costs), instants are integer milliseconds since the Unix epoch (UTC),
JavaScript numbers carrying money are modelled as exact rationals, and each
route handler becomes a total function from the request and the store to the
response (and, for the add route, the updated store).
-/

set_option maxRecDepth 8000
set_option maxHeartbeats 1000000

namespace CostManager

/-! ## Calendar arithmetic (model of ECMAScript `Date.UTC` / `MakeDay`) -/

/-- Milliseconds per day, as in ECMAScript time arithmetic. -/
def msPerDay : Int := 86400000

/-- Proleptic Gregorian leap-year rule, as used by ECMAScript `Date`. -/
def isLeapYear (y : Nat) : Bool :=
  (y % 4 == 0 && y % 100 != 0) || (y % 400 == 0)

/-- Number of days in year `y`. -/
def daysInYear (y : Nat) : Nat :=
  if isLeapYear y then 366 else 365

/-- Number of days in month `m` (1-based) of year `y`. -/
def daysInMonth (y : Nat) (m : Nat) : Nat :=
  if m == 2 then (if isLeapYear y then 29 else 28)
  else if m == 4 || m == 6 || m == 9 || m == 11 then 30
  else 31

/-- Days from 0000-01-01 to the first day of year `y` (proleptic Gregorian):
365 per year plus one per leap year in `[0, y)` — the ECMAScript
`DayFromYear` count shifted to the year-0 epoch. -/
def daysBeforeYear (y : Nat) : Nat :=
  365 * y + (y + 3) / 4 - (y + 99) / 100 + (y + 399) / 400

/-- Days in year `y` strictly before the first day of month `m` (1-based). -/
def daysBeforeMonth (y : Nat) : Nat → Nat
  | 0 => 0
  | 1 => 0
  | m + 1 => daysBeforeMonth y m + daysInMonth y m

/-- Day number of the Unix epoch 1970-01-01 counted from 0000-01-01. -/
def epochDays : Nat := daysBeforeYear 1970

/-- ECMAScript `MakeFullYear` for a non-negative integral year argument:
`Date.UTC` maps year arguments 0-99 to 1900+year; other years denote
themselves. -/
def jsFullYear (y : Nat) : Nat := if y ≤ 99 then 1900 + y else y

/-- The ECMAScript `MakeDay`/`MakeDate` computation on an already-resolved
(post-`MakeFullYear`) non-negative year: the month index is normalized into
the year (`monthIdx` ∈ [0,12] occurs in the source) and the day is a 1-based
offset, so day 0 is the last day of the previous month. Result is in
milliseconds since the Unix epoch, before `TimeClip`. -/
def makeUTCTime (yr monthIdx : Nat) (day : Int) (h mi s ms : Nat) : Int :=
  let y := yr + monthIdx / 12
  let m := monthIdx % 12 + 1
  ((daysBeforeYear y : Int) + (daysBeforeMonth y m : Int) - (epochDays : Int) + (day - 1)) * msPerDay
    + ((h * 3600000 + mi * 60000 + s * 1000 + ms : Nat) : Int)

/-- Model of `Date.UTC(year, monthIdx, day, h, mi, s, ms)` for a non-negative
year and month index: `MakeFullYear` on the year argument, then
`MakeDay`/`MakeDate`. `Date.UTC` finally applies `TimeClip`; since the NaN
time value of an out-of-range instant has no integer representation, we
return the unclipped time value and expose the clip separately as
`dateValid`, which the route model consults exactly where an Invalid Date
would make the store's date cast throw. -/
def jsDateUTC (year monthIdx : Nat) (day : Int) (h mi s ms : Nat) : Int :=
  makeUTCTime (jsFullYear year) monthIdx day h mi s ms

/-- ECMAScript `TimeClip`: a time value denotes a finite `Date` instant iff
its magnitude is at most 8.64e15 ms; beyond that the `Date` is Invalid (NaN
time value). -/
def dateValid (t : Int) : Bool := t.natAbs ≤ 8640000000000000

/-- `startDate` of the report window:
`new Date(Date.UTC(yearNum, monthNum - 1, 1, 0, 0, 0))`. -/
def startDate (yearNum monthNum : Nat) : Int :=
  jsDateUTC yearNum (monthNum - 1) 1 0 0 0 0

/-- `endDate` of the report window:
`new Date(Date.UTC(yearNum, monthNum, 0, 23, 59, 59, 999))`. -/
def endDate (yearNum monthNum : Nat) : Int :=
  jsDateUTC yearNum monthNum 0 23 59 59 999

/-- Modelled from the spec: the first instant (00:00:00.000 UTC) of the
calendar month `(y, m)`, in milliseconds since the Unix epoch. -/
def specFirstInstant (y m : Nat) : Int :=
  ((daysBeforeYear y : Int) + (daysBeforeMonth y m : Int) - (epochDays : Int)) * msPerDay

/-- Year of the calendar month following `(y, m)`. -/
def nextMonthYear (y m : Nat) : Nat := if m = 12 then y + 1 else y

/-- Month of the calendar month following `(y, m)`. -/
def nextMonthMonth (m : Nat) : Nat := if m = 12 then 1 else m + 1

/-! ## Data model -/

/-- A stored User record (`models/user.js`): logical `id`, names.
Optional `birthday`/`marital_status` play no role in any handler. -/
structure UserRec where
  id : Int
  first_name : String
  last_name : String
deriving DecidableEq

/-- A stored Cost record (`models/cost.js`): `description`, `category`,
`userid`, numeric `sum` (modelled exactly as a rational), and occurrence
`date` in ms since the Unix epoch. -/
structure CostRec where
  description : String
  category : String
  userid : Int
  sum : Rat
  date : Int
deriving DecidableEq

/-- The query `Cost.find({ userid, date: { $gte: startDate, $lte: endDate } })`:
all costs of `uid` whose date lies in the inclusive window `[s, e]`. -/
def costFind (costs : List CostRec) (uid : Int) (s e : Int) : List CostRec :=
  costs.filter (fun c => c.userid == uid && decide (s ≤ c.date) && decide (c.date ≤ e))

/-! ## Request parsing -/

/-- The test `/^\d+$/.test(s)`: `s` is nonempty and consists solely of
decimal digits. -/
def isAllDigits (s : String) : Bool :=
  s.length != 0 && s.toList.all Char.isDigit

/-- `parseInt` on an all-digit string: its decimal value. -/
def parseIntDigits (s : String) : Nat :=
  s.toList.foldl (fun a c => a * 10 + (c.toNat - 48)) 0

/-! ## Local-time day-of-month (model of `new Date(t).getDate()`) -/

/-- Model of `new Date(t).getDate()` for a process whose local time zone is a
fixed offset of `tzOffsetMin` minutes from UTC: ECMAScript `DateFromTime`
composed with `LocalTime` (daylight-saving shifts are not modelled). The
day-of-month (1-31) of the local civil date of `t` is computed by the
standard proleptic-Gregorian civil-from-days conversion (era/day-of-era/
day-of-year arithmetic over floor divisions). -/
def jsGetDate (tzOffsetMin : Int) (t : Int) : Int :=
  let localT := t + tzOffsetMin * 60000
  let z := Int.fdiv localT msPerDay + 719468
  let era := Int.fdiv z 146097
  let doe := z - era * 146097
  let yoe := Int.fdiv (doe - Int.fdiv doe 1460 + Int.fdiv doe 36524 - Int.fdiv doe 146096) 365
  let doy := doe - (365 * yoe + Int.fdiv yoe 4 - Int.fdiv yoe 100)
  let mp := Int.fdiv (5 * doy + 2) 153
  doy - Int.fdiv (153 * mp + 2) 5 + 1

/-! ## Report route -/

/-- One projected cost item inside a report bucket: `{sum, description, day}`. -/
structure ReportItem where
  sum : Rat
  description : String
  day : Int
deriving DecidableEq

/-- One single-key category bucket `{ [category]: items }` of the report. -/
structure Bucket where
  key : String
  items : List ReportItem
deriving DecidableEq

/-- The successful report payload `{userid, year, month, costs}`. -/
structure Report where
  userid : Int
  year : Nat
  month : Nat
  costs : List Bucket
deriving DecidableEq

/-- The fixed category order of the report:
`['food', 'education', 'health', 'housing', 'sport']`. -/
def categories : List String := ["food", "education", "health", "housing", "sport"]

/-- Outcomes of `GET /api/report`. -/
inductive ReportResult where
  | invalidUserId
  | userNotFound (id : String)
  | invalidYearFormat
  | invalidMonthFormat
  | invalidMonth
  | internalFailure
  | ok (report : Report)
deriving DecidableEq

/-- HTTP status attached to each report outcome by the source
(`res.status(...)`; the catch-all handler responds 500; a bare `res.json`
responds 200). -/
def reportStatus : ReportResult → Nat
  | .invalidUserId => 400
  | .userNotFound _ => 404
  | .invalidYearFormat => 400
  | .invalidMonthFormat => 400
  | .invalidMonth => 400
  | .internalFailure => 500
  | .ok _ => 200

/-- `User.findOne({ id })` on the store: the first user with the given id. -/
def findOneUser (users : List UserRec) (id : Int) : Option UserRec :=
  users.find? (fun u => u.id == id)

/-- The success branch of the report route: bucket the selected costs by the
fixed categories, projecting each cost to `{sum, description, day}` where the
day is computed by `new Date(cost.date).getDate()` in the process time zone. -/
def buildReport (tzOffsetMin : Int) (numericId : Int) (yearNum monthNum : Nat)
    (selected : List CostRec) : Report :=
  { userid := numericId
    year := yearNum
    month := monthNum
    costs := categories.map (fun category =>
      { key := category
        items := (selected.filter (fun c => c.category == category)).map
          (fun c => { sum := c.sum, description := c.description,
                      day := jsGetDate tzOffsetMin c.date }) }) }

/-- `GET /api/report` (`routes/api.js`): id check, user lookup, year/month
validation, month window and aggregation — parameterized by the store
contents and the process time-zone offset in minutes (the bucketed `day`
uses the local-time `getDate`). -/
def getReport (users : List UserRec) (costs : List CostRec) (tzOffsetMin : Int)
    (id year month : Option String) : ReportResult :=
  match id with
  | none => .invalidUserId
  | some idStr =>
    if !(isAllDigits idStr) then .invalidUserId
    else
      let numericId : Int := (parseIntDigits idStr : Int)
      match findOneUser users numericId with
      | none => .userNotFound idStr
      | some _ =>
        match year with
        | none => .invalidYearFormat
        | some ys =>
          if !(isAllDigits ys) then .invalidYearFormat
          else match month with
            | none => .invalidMonthFormat
            | some mos =>
              if !(isAllDigits mos) then .invalidMonthFormat
              else
                let yearNum := parseIntDigits ys
                let monthNum := parseIntDigits mos
                if monthNum < 1 || monthNum > 12 then .invalidMonth
                else
                  if !(dateValid (startDate yearNum monthNum))
                      || !(dateValid (endDate yearNum monthNum)) then
                    .internalFailure
                  else
                    .ok (buildReport tzOffsetMin numericId yearNum monthNum
                          (costFind costs numericId (startDate yearNum monthNum)
                            (endDate yearNum monthNum)))

/-! ## Add-cost route -/

/-- Body of `POST /api/add`. A field that is absent is `none`; for `sum`,
`none` also stands for a value whose JavaScript numeric coercion is NaN;
`date` is the parsed instant when present. -/
structure AddBody where
  description : Option String
  category : Option String
  userid : Option Int
  sum : Option Rat
  date : Option Int
deriving DecidableEq

/-- Outcomes of `POST /api/add`. `addFailed` carries the schema paths whose
validation or cast failed; the route's catch turns them into a 400
`'Failed To Add Cost Item'` whose message names each failing path. -/
inductive AddResult where
  | userNotFound
  | addFailed (paths : List String)
  | created (c : CostRec)
deriving DecidableEq

/-- HTTP status of each add outcome. -/
def addStatus : AddResult → Nat
  | .userNotFound => 404
  | .addFailed _ => 400
  | .created _ => 201

/-- The cost schema's category enumeration, in schema order
(`models/cost.js`). -/
def costCategoryEnum : List String :=
  ["food", "health", "housing", "sport", "education"]

/-- `User.findOne({ id: userid })` with the raw body field. A request without
`userid` matches no stored user — the store behavior the repository's own
tests pin (adding with no `userid` answers 404 User Not Found). -/
def findUserByBody (users : List UserRec) (userid : Option Int) : Option UserRec :=
  match userid with
  | none => none
  | some k => users.find? (fun u => u.id == k)

/-- Whitespace as stripped by JavaScript `String.prototype.trim` (the ASCII
part of the WhiteSpace/LineTerminator productions, which is all the data this
system ever sees). -/
def isJsWhitespace (c : Char) : Bool :=
  c = ' ' || c = '\t' || c = '\n' || c = '\r' || c = '\x0b' || c = '\x0c'

/-- The schema `trim: true` setter: strip leading and trailing whitespace. -/
def trimString (s : String) : String :=
  String.mk (((s.toList.dropWhile isJsWhitespace).reverse.dropWhile isJsWhitespace).reverse)

/-- The schema paths of `models/cost.js` that fail validation or casting for
the given body, in schema order: `description` is trimmed by the schema and
must then be a nonempty string (`required`); `category` must be present and
belong to the enumeration; `userid` must be present and ≥ 1 (`min`); `sum`
must be numeric (`required`, and a non-numeric body coerces to NaN, which the
Number cast rejects). The canonical schema puts no upper bound on the
description length. -/
def costErrors (body : AddBody) : List String :=
  (match body.description with
   | none => ["description"]
   | some d => if trimString d = "" then ["description"] else [])
  ++ (match body.category with
      | none => ["category"]
      | some c => if c ∈ costCategoryEnum then [] else ["category"])
  ++ (match body.userid with
      | none => ["userid"]
      | some k => if k < 1 then ["userid"] else [])
  ++ (match body.sum with
      | none => ["sum"]
      | some _ => [])

/-- The Cost document built by the add route on the happy path: description
trimmed by the schema, `userid`/`sum` coerced, date defaulting to the current
instant `now` when absent (`default: Date.now`). -/
def mkCost (body : AddBody) (now : Int) : CostRec :=
  { description := trimString (body.description.getD "")
    category := body.category.getD ""
    userid := body.userid.getD 0
    sum := body.sum.getD 0
    date := body.date.getD now }

/-- `POST /api/add` (`routes/api.js`): user lookup, then `cost.save()` under
the schema validation of `models/cost.js`; returns the response together with
the resulting cost store. -/
def addCost (users : List UserRec) (costs : List CostRec) (now : Int)
    (body : AddBody) : AddResult × List CostRec :=
  match findUserByBody users body.userid with
  | none => (.userNotFound, costs)
  | some _ =>
    if costErrors body = [] then
      (.created (mkCost body now), costs ++ [mkCost body now])
    else
      (.addFailed (costErrors body), costs)

/-! ## User-summary route -/

/-- Outcomes of `GET /api/users/:id`. -/
inductive SummaryResult where
  | userNotFound (id : Int)
  | ok (id : Int) (first_name : String) (last_name : String) (total : Rat)
deriving DecidableEq

/-- HTTP status of each summary outcome. -/
def summaryStatus : SummaryResult → Nat
  | .userNotFound _ => 404
  | .ok _ _ _ _ => 200

/-- The aggregation `$match userid` / `$group total: { $sum: "$sum" }`
followed by `total.length > 0 ? total[0].total : 0`: the arithmetic sum of
the user's cost sums, `0` when the user has none. -/
def totalForUser (costs : List CostRec) (id : Int) : Rat :=
  ((costs.filter (fun c => c.userid == id)).map CostRec.sum).sum

/-- `GET /api/users/:id` (`routes/api.js`): resolve the user, then return the
stored names together with the aggregated total. -/
def getUserSummary (users : List UserRec) (costs : List CostRec) (id : Int) :
    SummaryResult :=
  match findOneUser users id with
  | none => .userNotFound id
  | some u => .ok u.id u.first_name u.last_name (totalForUser costs id)

/-- A 101-character description, used to exercise the absent upper length
bound of the canonical cost schema. -/
def longDesc : String := String.mk (List.replicate 101 'a')

end CostManager

namespace CostManager

/-- The month window successor identity needed at December: one more year
contributes `daysInYear` days. -/
theorem daysBeforeYear_succ (y : Nat) :
    daysBeforeYear (y + 1) = daysBeforeYear y + daysInYear y := by
  unfold daysBeforeYear daysInYear
  by_cases h : isLeapYear y = true
  · rw [if_pos h]
    simp only [isLeapYear, Bool.or_eq_true, Bool.and_eq_true, beq_iff_eq, bne_iff_ne] at h
    omega
  · rw [if_neg h]
    simp only [isLeapYear, Bool.or_eq_true, Bool.and_eq_true, beq_iff_eq, bne_iff_ne] at h
    omega

/-- The window arithmetic of the report route over an already-resolved
(post-`MakeFullYear`) year `Y` and a month in [1,12]: `Date.UTC(Y, m-1, 1)`
is the first instant of the month, `Date.UTC(Y, m, 0, 23:59:59.999)` is the
first instant of the next month minus one millisecond, the window spans
exactly `daysInMonth` days, and month lengths are 28-31 with February 29
exactly in leap years. -/
theorem month_window_arith (Y m : Nat) (h1 : 1 ≤ m) (h2 : m ≤ 12) :
    makeUTCTime Y (m - 1) 1 0 0 0 0 = specFirstInstant Y m
  ∧ makeUTCTime Y m 0 23 59 59 999
      = specFirstInstant (nextMonthYear Y m) (nextMonthMonth m) - 1
  ∧ specFirstInstant (nextMonthYear Y m) (nextMonthMonth m) - specFirstInstant Y m
      = (daysInMonth Y m : Int) * msPerDay
  ∧ 28 ≤ daysInMonth Y m ∧ daysInMonth Y m ≤ 31
  ∧ daysInMonth Y 2 = (if isLeapYear Y then 29 else 28) := by
  refine ⟨?_, ?_, ?_, ?_, ?_, ?_⟩ <;>
    interval_cases m <;>
    cases hL : isLeapYear Y <;>
    simp [makeUTCTime, specFirstInstant, nextMonthYear, nextMonthMonth,
      daysBeforeYear_succ, daysBeforeMonth, daysInMonth, daysInYear, msPerDay, hL] <;>
    push_cast <;>
    ring_nf <;>
    omega

/-- Membership in the window query: `costFind` selects exactly the costs of
the user dated inside the inclusive window. -/
theorem costFind_mem (costs : List CostRec) (uid : Int) (s e : Int) (c : CostRec) :
    c ∈ costFind costs uid s e
      ↔ (c ∈ costs ∧ c.userid = uid ∧ s ≤ c.date ∧ c.date ≤ e) := by
  simp [costFind, List.mem_filter, Bool.and_eq_true, decide_eq_true_eq, beq_iff_eq,
    and_assoc]

/-- Inversion of the report route: every successful report has a month in
[1,12] and is the `buildReport` of its own fields over the window query. -/
theorem getReport_ok_inv (users : List UserRec) (costs : List CostRec) (tz : Int)
    (id year month : Option String) (r : Report)
    (hok : getReport users costs tz id year month = .ok r) :
    1 ≤ r.month ∧ r.month ≤ 12
  ∧ r = buildReport tz r.userid r.year r.month
          (costFind costs r.userid (startDate r.year r.month) (endDate r.year r.month)) := by
  simp only [getReport] at hok
  repeat' split at hok
  all_goals simp at hok
  all_goals subst hok
  all_goals refine ⟨?_, ?_, rfl⟩ <;>
    simp only [buildReport] <;>
    simp only [Bool.or_eq_true, decide_eq_true_eq, not_or, not_lt] at * <;>
    omega

/-- Counterexample to C1: `Date.UTC` interprets two-digit year arguments as
1900+year, so for the valid request year="99", month="6" the route's window
starts at the first instant of June 1999, not of (99, 6) — a cost dated
1999-06-01 is selected by a report for year="99" — and a year argument whose
window exceeds the representable `Date` range yields the internal 500
failure instead of any window. -/
theorem report_window_two_digit_year :
    startDate 99 6 = specFirstInstant 1999 6
  ∧ specFirstInstant 1999 6 ≠ specFirstInstant 99 6
  ∧ getReport [⟨1, "Test", "User"⟩] [⟨"Lunch", "food", 1, 15, specFirstInstant 1999 6⟩] 0
      (some "1") (some "99") (some "6")
      = .ok ⟨1, 99, 6, [⟨"food", [⟨15, "Lunch", 1⟩]⟩, ⟨"education", []⟩, ⟨"health", []⟩,
          ⟨"housing", []⟩, ⟨"sport", []⟩]⟩
  ∧ getReport [⟨1, "Test", "User"⟩] [] 0 (some "1") (some "300000") (some "6")
      = .internalFailure
  ∧ reportStatus .internalFailure = 500 :=
  ⟨by decide, by decide, by decide, by decide, rfl⟩

/-- C1 as amended: for every successful report, the month window has
start = the first instant in UTC of the month of the ECMAScript-resolved
year (`Date.UTC` maps year arguments 0-99 to 1900+year; larger years denote
themselves), end = the last instant of the same month (start of the next
month minus one millisecond), month lengths of 28-31 days with February 29
exactly in leap years, and exactly the user's costs with occurrence date in
[start, end] inclusive are selected; out-of-range windows never reach
selection (the route fails with the internal 500 instead). -/
theorem report_month_window (users : List UserRec) (costs : List CostRec) (tz : Int)
    (id year month : Option String) (r : Report)
    (hok : getReport users costs tz id year month = .ok r) :
    startDate r.year r.month = specFirstInstant (jsFullYear r.year) r.month
  ∧ endDate r.year r.month
      = specFirstInstant (nextMonthYear (jsFullYear r.year) r.month)
          (nextMonthMonth r.month) - 1
  ∧ specFirstInstant (nextMonthYear (jsFullYear r.year) r.month) (nextMonthMonth r.month)
      - specFirstInstant (jsFullYear r.year) r.month
      = (daysInMonth (jsFullYear r.year) r.month : Int) * msPerDay
  ∧ 28 ≤ daysInMonth (jsFullYear r.year) r.month
  ∧ daysInMonth (jsFullYear r.year) r.month ≤ 31
  ∧ daysInMonth (jsFullYear r.year) 2 = (if isLeapYear (jsFullYear r.year) then 29 else 28)
  ∧ ∀ c : CostRec,
      c ∈ costFind costs r.userid (startDate r.year r.month) (endDate r.year r.month)
        ↔ (c ∈ costs ∧ c.userid = r.userid ∧ startDate r.year r.month ≤ c.date
            ∧ c.date ≤ endDate r.year r.month) := by
  obtain ⟨hm1, hm2, -⟩ := getReport_ok_inv users costs tz id year month r hok
  have h := month_window_arith (jsFullYear r.year) r.month hm1 hm2
  exact ⟨h.1, h.2.1, h.2.2.1, h.2.2.2.1, h.2.2.2.2.1, h.2.2.2.2.2,
    fun c => costFind_mem costs r.userid _ _ c⟩

/-- Witness for C1 as amended: a concrete successful report for leap-February
2024, whose window facts follow. -/
theorem report_month_window_witness :
    getReport [⟨1, "Test", "User"⟩] [] 0 (some "1") (some "2024") (some "2")
      = .ok ⟨1, 2024, 2, [⟨"food", []⟩, ⟨"education", []⟩, ⟨"health", []⟩,
          ⟨"housing", []⟩, ⟨"sport", []⟩]⟩
  ∧ (startDate 2024 2 = specFirstInstant (jsFullYear 2024) 2
  ∧ endDate 2024 2
      = specFirstInstant (nextMonthYear (jsFullYear 2024) 2) (nextMonthMonth 2) - 1
  ∧ specFirstInstant (nextMonthYear (jsFullYear 2024) 2) (nextMonthMonth 2)
      - specFirstInstant (jsFullYear 2024) 2
      = (daysInMonth (jsFullYear 2024) 2 : Int) * msPerDay
  ∧ 28 ≤ daysInMonth (jsFullYear 2024) 2
  ∧ daysInMonth (jsFullYear 2024) 2 ≤ 31
  ∧ daysInMonth (jsFullYear 2024) 2 = (if isLeapYear (jsFullYear 2024) then 29 else 28)
  ∧ ∀ c : CostRec, c ∈ costFind [] 1 (startDate 2024 2) (endDate 2024 2)
      ↔ (c ∈ ([] : List CostRec) ∧ c.userid = 1 ∧ startDate 2024 2 ≤ c.date
          ∧ c.date ≤ endDate 2024 2)) :=
  ⟨by decide,
   report_month_window [⟨1, "Test", "User"⟩] [] 0 (some "1") (some "2024") (some "2")
     ⟨1, 2024, 2, [⟨"food", []⟩, ⟨"education", []⟩, ⟨"health", []⟩,
       ⟨"housing", []⟩, ⟨"sport", []⟩]⟩ (by decide)⟩

/-- Bucketing a cost list over the fixed category list preserves the total
sum, provided every cost's category is one of the five. -/
theorem sum_over_categories (l : List CostRec)
    (h : ∀ c ∈ l, c.category ∈ categories) :
    (categories.map (fun cat =>
      ((l.filter (fun c => c.category == cat)).map CostRec.sum).sum)).sum
      = (l.map CostRec.sum).sum := by
  induction l with
  | nil => simp
  | cons a t ih =>
    have ha := h a (List.mem_cons_self a t)
    have ih' := ih (fun c hc => h c (List.mem_cons_of_mem a hc))
    simp only [categories, List.mem_cons, List.not_mem_nil, or_false] at ha
    simp only [categories, List.map_cons, List.map_nil, List.sum_cons, List.sum_nil,
      List.filter_cons] at ih' ⊢
    rcases ha with h1 | h1 | h1 | h1 | h1 <;>
      simp [h1] <;> linarith [ih']

/-- The bucket totals of a built report add up to the total of the selected
costs. -/
theorem buildReport_total (tz nid : Int) (y m : Nat) (sel : List CostRec)
    (h : ∀ c ∈ sel, c.category ∈ categories) :
    ((buildReport tz nid y m sel).costs.map
        (fun b => (b.items.map ReportItem.sum).sum)).sum
      = (sel.map CostRec.sum).sum := by
  refine Eq.trans ?_ (sum_over_categories sel h)
  simp only [buildReport]
  rw [List.map_map]
  refine congrArg List.sum (List.map_congr_left ?_)
  intro cat hcat
  simp only [Function.comp_apply]
  rw [List.map_map]
  rfl

/-- C2: every successful report's `costs` field is exactly five buckets, one
per category, keyed in the fixed order food, education, health, housing,
sport — regardless of the stored data. -/
theorem report_buckets_fixed_categories (users : List UserRec) (costs : List CostRec)
    (tz : Int) (id year month : Option String) (r : Report)
    (hok : getReport users costs tz id year month = .ok r) :
    r.costs.map Bucket.key = categories ∧ r.costs.length = 5 := by
  have h := (getReport_ok_inv users costs tz id year month r hok).2.2
  rw [h]
  simp [buildReport, categories]

/-- Witness for C2: a concrete successful report over an empty cost store
still carries all five category buckets in order. -/
theorem report_buckets_witness :
    getReport [⟨1, "Test", "User"⟩] [] 0 (some "1") (some "2024") (some "6")
      = .ok ⟨1, 2024, 6, [⟨"food", []⟩, ⟨"education", []⟩, ⟨"health", []⟩,
          ⟨"housing", []⟩, ⟨"sport", []⟩]⟩
  ∧ (Report.mk 1 2024 6 [⟨"food", []⟩, ⟨"education", []⟩, ⟨"health", []⟩,
        ⟨"housing", []⟩, ⟨"sport", []⟩]).costs.map Bucket.key = categories
  ∧ (Report.mk 1 2024 6 [⟨"food", []⟩, ⟨"education", []⟩, ⟨"health", []⟩,
        ⟨"housing", []⟩, ⟨"sport", []⟩]).costs.length = 5 :=
  ⟨by decide,
   report_buckets_fixed_categories [⟨1, "Test", "User"⟩] [] 0 (some "1") (some "2024")
     (some "6")
     ⟨1, 2024, 6, [⟨"food", []⟩, ⟨"education", []⟩, ⟨"health", []⟩,
       ⟨"housing", []⟩, ⟨"sport", []⟩]⟩ (by decide)⟩

/-- C3: in every successful report, the bucketed item sums add up to the sum
over all of the user's costs inside the month window — nothing dropped or
duplicated — provided every stored cost's category belongs to the taxonomy. -/
theorem report_total_conservation (users : List UserRec) (costs : List CostRec)
    (tz : Int) (id year month : Option String) (r : Report)
    (hok : getReport users costs tz id year month = .ok r)
    (hcat : ∀ c ∈ costs, c.category ∈ categories) :
    (r.costs.map (fun b => (b.items.map ReportItem.sum).sum)).sum
      = ((costFind costs r.userid (startDate r.year r.month) (endDate r.year r.month)).map
          CostRec.sum).sum := by
  have h := (getReport_ok_inv users costs tz id year month r hok).2.2
  rw [h]
  exact buildReport_total tz r.userid r.year r.month _
    (fun c hc => hcat c (List.mem_of_mem_filter hc))

/-- Witness for C3: one June-2024 cost in the store; the report's bucket
totals equal the selected-cost total. -/
theorem report_total_conservation_witness :
    getReport [⟨1, "Test", "User"⟩] [⟨"Breakfast", "food", 1, 10, specFirstInstant 2024 6⟩]
        0 (some "1") (some "2024") (some "6")
      = .ok ⟨1, 2024, 6, [⟨"food", [⟨10, "Breakfast", 1⟩]⟩, ⟨"education", []⟩,
          ⟨"health", []⟩, ⟨"housing", []⟩, ⟨"sport", []⟩]⟩
  ∧ (∀ c ∈ [(⟨"Breakfast", "food", 1, 10, specFirstInstant 2024 6⟩ : CostRec)],
      c.category ∈ categories)
  ∧ ((Report.mk 1 2024 6 [⟨"food", [⟨10, "Breakfast", 1⟩]⟩, ⟨"education", []⟩,
        ⟨"health", []⟩, ⟨"housing", []⟩, ⟨"sport", []⟩]).costs.map
        (fun b => (b.items.map ReportItem.sum).sum)).sum
      = ((costFind [⟨"Breakfast", "food", 1, 10, specFirstInstant 2024 6⟩] 1
            (startDate 2024 6) (endDate 2024 6)).map CostRec.sum).sum :=
  ⟨by decide, by decide,
   report_total_conservation [⟨1, "Test", "User"⟩]
     [⟨"Breakfast", "food", 1, 10, specFirstInstant 2024 6⟩] 0 (some "1") (some "2024")
     (some "6")
     ⟨1, 2024, 6, [⟨"food", [⟨10, "Breakfast", 1⟩]⟩, ⟨"education", []⟩,
       ⟨"health", []⟩, ⟨"housing", []⟩, ⟨"sport", []⟩]⟩ (by decide) (by decide)⟩

/-- C4 (code bug): the bucketed `day` is computed by the local-time
`getDate()` rather than in the UTC reference zone used for the window: for a
cost dated 2024-06-01T00:00:00.000Z, a process at UTC−01:00 reports day 31
while a process at UTC reports day 1, for the same stored data. -/
theorem report_day_uses_local_time :
    getReport [⟨1, "Test", "User"⟩] [⟨"Lunch", "food", 1, 15, specFirstInstant 2024 6⟩]
        (-60) (some "1") (some "2024") (some "6")
      = .ok ⟨1, 2024, 6, [⟨"food", [⟨15, "Lunch", 31⟩]⟩, ⟨"education", []⟩,
          ⟨"health", []⟩, ⟨"housing", []⟩, ⟨"sport", []⟩]⟩
  ∧ getReport [⟨1, "Test", "User"⟩] [⟨"Lunch", "food", 1, 15, specFirstInstant 2024 6⟩]
        0 (some "1") (some "2024") (some "6")
      = .ok ⟨1, 2024, 6, [⟨"food", [⟨15, "Lunch", 1⟩]⟩, ⟨"education", []⟩,
          ⟨"health", []⟩, ⟨"housing", []⟩, ⟨"sport", []⟩]⟩ :=
  ⟨by decide, by decide⟩

/-- Counterexample to C5: with the id parameter missing entirely, the report
route answers the clean client error `Invalid User ID` with status 400 — not
an internal-error-class 500 response. -/
theorem missing_id_answers_client_400 :
    getReport [] [] 0 none (some "2024") (some "6") = .invalidUserId
  ∧ reportStatus (getReport [] [] 0 none (some "2024") (some "6")) = 400
  ∧ reportStatus (getReport [] [] 0 none (some "2024") (some "6")) ≠ 500 :=
  ⟨rfl, rfl, by decide⟩

/-- C5 as amended: a report request with no id always receives the 400
`Invalid User ID` client error, whatever the store and the other
parameters. -/
theorem missing_id_clean_client_error (users : List UserRec) (costs : List CostRec)
    (tz : Int) (year month : Option String) :
    getReport users costs tz none year month = .invalidUserId
  ∧ reportStatus (getReport users costs tz none year month) = 400 :=
  ⟨rfl, rfl⟩

/-- Counterexample to C6: with an existing user and `month="13"`, a non-digit
year makes the request fail `Invalid Year Format`, not `Invalid Month` — the
month-range failure is not independent of year validity. -/
theorem month13_bad_year_counterexample :
    getReport [⟨1, "Test", "User"⟩] [] 0 (some "1") (some "20a4") (some "13")
      = .invalidYearFormat
  ∧ getReport [⟨1, "Test", "User"⟩] [] 0 (some "1") (some "20a4") (some "13")
      ≠ .invalidMonth :=
  ⟨rfl, by decide⟩

/-- C6 as amended: a month outside [1,12] fails `Invalid Month` provided the
earlier checks pass — the id is an all-digit string resolving to an existing
user and both year and month are all-digit strings. -/
theorem month_out_of_range_invalidMonth (users : List UserRec) (costs : List CostRec)
    (tz : Int) (idStr ys mos : String) (u : UserRec)
    (hid : isAllDigits idStr = true)
    (hu : findOneUser users ((parseIntDigits idStr : Nat) : Int) = some u)
    (hy : isAllDigits ys = true)
    (hm : isAllDigits mos = true)
    (hrange : parseIntDigits mos < 1 ∨ 12 < parseIntDigits mos) :
    getReport users costs tz (some idStr) (some ys) (some mos) = .invalidMonth := by
  simp only [getReport, hid, hy, hm, hu, Bool.not_true, Bool.false_eq_true, if_false]
  rcases hrange with h | h <;> simp [h]

/-- Witness for C6 as amended: the canonical month-13 example. -/
theorem month_out_of_range_invalidMonth_witness :
    (isAllDigits "1" = true
      ∧ findOneUser [⟨1, "Test", "User"⟩] ((parseIntDigits "1" : Nat) : Int)
          = some ⟨1, "Test", "User"⟩
      ∧ isAllDigits "2024" = true ∧ isAllDigits "13" = true
      ∧ (parseIntDigits "13" < 1 ∨ 12 < parseIntDigits "13"))
  ∧ getReport [⟨1, "Test", "User"⟩] [] 0 (some "1") (some "2024") (some "13")
      = .invalidMonth :=
  ⟨⟨by decide, by decide, by decide, by decide, Or.inr (by decide)⟩,
   month_out_of_range_invalidMonth [⟨1, "Test", "User"⟩] [] 0 "1" "2024" "13"
     ⟨1, "Test", "User"⟩ (by decide) (by decide) (by decide) (by decide)
     (Or.inr (by decide))⟩

/-- Counterexample to C7: a 101-character description is accepted and the
cost is persisted — the canonical schema enforces no 100-character upper
bound. -/
theorem overlong_description_accepted :
    addCost [⟨1, "Test", "User"⟩] [] 0 ⟨some longDesc, some "food", some 1, some 5, some 0⟩
      = (.created ⟨longDesc, "food", 1, 5, 0⟩, [⟨longDesc, "food", 1, 5, 0⟩])
  ∧ 100 < longDesc.length :=
  ⟨by decide, by decide⟩

/-- C7 as amended: for an existing user, a description that is missing or
trims to the empty string fails the add with the generic
`Failed To Add Cost Item` (whose failing paths name `description`) and no
cost is persisted; no upper length bound is enforced. -/
theorem empty_description_rejected (users : List UserRec) (costs : List CostRec)
    (now : Int) (body : AddBody) (u : UserRec)
    (hu : findUserByBody users body.userid = some u)
    (hd : body.description = none
          ∨ ∃ s, body.description = some s ∧ trimString s = "") :
    addCost users costs now body = (.addFailed (costErrors body), costs)
  ∧ "description" ∈ costErrors body := by
  have hdesc : (match body.description with
      | none => ["description"]
      | some d => if trimString d = "" then ["description"] else []) = ["description"] := by
    rcases hd with h | ⟨s, hs, ht⟩
    · rw [h]
    · rw [hs]; simp [ht]
  have hmem : "description" ∈ costErrors body := by
    unfold costErrors
    rw [hdesc]
    simp
  have hne : costErrors body ≠ [] := by
    intro hcontra
    rw [hcontra] at hmem
    cases hmem
  refine ⟨?_, hmem⟩
  unfold addCost
  rw [hu, if_neg hne]

/-- Witness for C7 as amended: a whitespace-only description for an existing
user is rejected with the `description` path and the store is unchanged. -/
theorem empty_description_rejected_witness :
    (findUserByBody [⟨1, "Test", "User"⟩] (some 1) = some ⟨1, "Test", "User"⟩
      ∧ trimString "   " = "")
  ∧ addCost [⟨1, "Test", "User"⟩] [] 0 ⟨some "   ", some "food", some 1, some 5, none⟩
      = (.addFailed (costErrors ⟨some "   ", some "food", some 1, some 5, none⟩), [])
  ∧ "description" ∈ costErrors ⟨some "   ", some "food", some 1, some 5, none⟩ :=
  ⟨⟨by decide, by decide⟩,
   empty_description_rejected [⟨1, "Test", "User"⟩] [] 0
     ⟨some "   ", some "food", some 1, some 5, none⟩ ⟨1, "Test", "User"⟩ (by decide)
     (Or.inr ⟨"   ", rfl, by decide⟩)⟩

/-- C8: recording a cost has exactly one effect on success — the single new
record appended — and no effect on any failure; in particular an unresolved
user yields `User Not Found` and an unchanged store. -/
theorem add_cost_single_effect (users : List UserRec) (costs : List CostRec)
    (now : Int) (body : AddBody) (r : AddResult) (s' : List CostRec)
    (h : addCost users costs now body = (r, s')) :
    (∀ c, r = .created c → s' = costs ++ [c])
  ∧ ((∀ c, r ≠ .created c) → s' = costs)
  ∧ (findUserByBody users body.userid = none → r = .userNotFound ∧ s' = costs) := by
  unfold addCost at h
  rcases hfu : findUserByBody users body.userid with _ | u <;> rw [hfu] at h
  · injection h with h1 h2
    subst h1; subst h2
    refine ⟨fun c hc => absurd hc (by simp), fun _ => rfl, fun _ => ⟨rfl, rfl⟩⟩
  · by_cases he : costErrors body = []
    · rw [if_pos he] at h
      injection h with h1 h2
      subst h1; subst h2
      refine ⟨fun c hc => ?_, fun hnone => ?_, fun hnone => ?_⟩
      · injection hc with h3
        rw [h3]
      · exact absurd rfl (hnone (mkCost body now))
      · exact absurd hnone (by simp)
    · rw [if_neg he] at h
      injection h with h1 h2
      subst h1; subst h2
      refine ⟨fun c hc => absurd hc (by simp), fun _ => rfl, fun hnone => ?_⟩
      exact absurd hnone (by simp)

/-- Witness for C8: a request for an absent user leaves the store unchanged
and reports `User Not Found`. -/
theorem add_cost_single_effect_witness :
    addCost [] [] 0 ⟨some "Lunch", some "food", some 5, some 15, none⟩
      = (.userNotFound, [])
  ∧ findUserByBody [] (AddBody.mk (some "Lunch") (some "food") (some 5) (some 15) none).userid
      = none
  ∧ (AddResult.userNotFound = AddResult.userNotFound ∧ ([] : List CostRec) = []) :=
  ⟨rfl, rfl,
   (add_cost_single_effect [] [] 0 ⟨some "Lunch", some "food", some 5, some 15, none⟩
     .userNotFound [] rfl).2.2 rfl⟩

/-- C9: for an existing user, the summary returns the stored id and names
with the plain arithmetic total of the user's cost sums (0 when there are
none); an absent user fails `User Not Found`. -/
theorem user_summary_fields_and_total (users : List UserRec) (costs : List CostRec)
    (id : Int) :
    (∀ u, findOneUser users id = some u →
      getUserSummary users costs id
        = .ok u.id u.first_name u.last_name (totalForUser costs id))
  ∧ (findOneUser users id = none → getUserSummary users costs id = .userNotFound id)
  ∧ (costs.filter (fun c => c.userid == id) = [] → totalForUser costs id = 0) := by
  refine ⟨fun u hu => ?_, fun hnone => ?_, fun hempty => ?_⟩
  · unfold getUserSummary
    rw [hu]
  · unfold getUserSummary
    rw [hnone]
  · unfold totalForUser
    rw [hempty]
    rfl

/-- Witness for C9: a user with costs −20 and +20 has total 0, returned with
the stored names. -/
theorem user_summary_witness :
    findOneUser [⟨1, "Test", "User"⟩] 1 = some ⟨1, "Test", "User"⟩
  ∧ getUserSummary [⟨1, "Test", "User"⟩]
      [⟨"Refund", "health", 1, -20, 0⟩, ⟨"Gift", "food", 1, 20, 0⟩] 1
      = .ok 1 "Test" "User"
          (totalForUser [⟨"Refund", "health", 1, -20, 0⟩, ⟨"Gift", "food", 1, 20, 0⟩] 1)
  ∧ totalForUser [⟨"Refund", "health", 1, -20, 0⟩, ⟨"Gift", "food", 1, 20, 0⟩] 1 = 0 :=
  ⟨rfl,
   (user_summary_fields_and_total [⟨1, "Test", "User"⟩]
     [⟨"Refund", "health", 1, -20, 0⟩, ⟨"Gift", "food", 1, 20, 0⟩] 1).1
     ⟨1, "Test", "User"⟩ rfl,
   by simp [totalForUser]⟩

/-- C10: an add request with no `userid` field is answered `User Not Found`
(404) by the user lookup — not a field-validation failure — and no cost is
persisted, whatever the stores and the remaining fields. -/
theorem add_missing_userid (users : List UserRec) (costs : List CostRec) (now : Int)
    (desc cat : Option String) (sum : Option Rat) (date : Option Int) :
    addCost users costs now ⟨desc, cat, none, sum, date⟩ = (.userNotFound, costs)
  ∧ addStatus (addCost users costs now ⟨desc, cat, none, sum, date⟩).1 = 404 :=
  ⟨rfl, rfl⟩

end CostManager
